import Mathlib

/-!
Verification of the ogg2caf core (`src/lib.rs`): a converter from
Ogg-encapsulated Opus audio streams to CAF containers.

The Rust source is shallowly embedded here:
* a byte stream is a `List Nat` (each entry a byte value, 0–255);
* the `Read`-cursor style of the Rust code becomes explicit state passing —
  each reader primitive returns the value read together with the remaining
  bytes, or an error;
* `anyhow::Error` values are modelled by the inductive `ConvError`, one
  constructor per distinct failure produced by the source;
* the external collaborators (the `ogg` crate's `PacketReader` and the
  `caf` crate's `PacketWriter`) are modelled per their capability
  contracts: the demuxer supplies a finite list of opaque packet payloads,
  and the container writer is a pure record of what the source hands it
  (audio description, priming frames, the ordered packet payloads).
-/

abbrev Byte := Nat

/-- Distinct failures of the conversion pipeline, one constructor per
`anyhow!` site or propagated I/O failure in `src/lib.rs`. -/
inductive ConvError where
  /-- `read_exact` / `read_uN` hit end of data (Rust `UnexpectedEof`). -/
  | unexpectedEof
  /-- `"missing magic signature"` from `OpusHead::read` or `OpusTags::read`. -/
  | badMagic
  /-- `"invalid version"` from `OpusHead::read`. -/
  | badVersion
  /-- `String::from_utf8` failure in `OpusTags::read`. -/
  | invalidEncoding
  /-- `"missing identification header packet"` from `convert`. -/
  | missingIdHeader
  /-- `"missing comment header packet"` from `convert`. -/
  | missingCommentHeader
deriving DecidableEq, Repr

/-- `Read::read_exact` into an `n`-byte buffer: returns the `n` bytes read
and the remaining input, or fails with `UnexpectedEof` when fewer than `n`
bytes remain. -/
def readBytes : Nat → List Byte → Except ConvError (List Byte × List Byte)
  | 0, bs => .ok ([], bs)
  | _ + 1, [] => .error .unexpectedEof
  | n + 1, b :: bs =>
    match readBytes n bs with
    | .ok (taken, rest) => .ok (b :: taken, rest)
    | .error e => .error e

/-- `ReadBytesExt::read_u8`. -/
def readU8 : List Byte → Except ConvError (Nat × List Byte)
  | [] => .error .unexpectedEof
  | b :: bs => .ok (b, bs)

/-- `ReadBytesExt::read_u16::<LE>`. -/
def readU16LE : List Byte → Except ConvError (Nat × List Byte)
  | b0 :: b1 :: bs => .ok (b0 + 256 * b1, bs)
  | _ => .error .unexpectedEof

/-- `ReadBytesExt::read_u32::<LE>`. -/
def readU32LE : List Byte → Except ConvError (Nat × List Byte)
  | b0 :: b1 :: b2 :: b3 :: bs =>
    .ok (b0 + 256 * b1 + 65536 * b2 + 16777216 * b3, bs)
  | _ => .error .unexpectedEof

/-- Reinterpret a 16-bit unsigned value as two's-complement signed. -/
def toI16 (v : Nat) : Int :=
  if v < 32768 then (v : Int) else (v : Int) - 65536

/-- `ReadBytesExt::read_i16::<LE>`. -/
def readI16LE : List Byte → Except ConvError (Int × List Byte)
  | b0 :: b1 :: bs => .ok (toI16 (b0 + 256 * b1), bs)
  | _ => .error .unexpectedEof

/-- The bytes of `b"OpusHead"`. -/
def opusHeadMagic : List Byte := [0x4f, 0x70, 0x75, 0x73, 0x48, 0x65, 0x61, 0x64]

/-- The bytes of `b"OpusTags"`. -/
def opusTagsMagic : List Byte := [0x4f, 0x70, 0x75, 0x73, 0x54, 0x61, 0x67, 0x73]

/-- The `OpusHead` struct of `src/lib.rs`. Rust integer types become `Nat`
(`u8`, `u16`, `u32`) and `Int` in two's-complement range (`i16`). -/
structure OpusHead where
  channel_count : Nat
  preskip : Nat
  input_sample_rate : Nat
  output_gain : Int
  channel_mapping_family : Nat
deriving DecidableEq, Repr

/-- `OpusHead::read`, translated statement by statement from
`src/lib.rs` lines 61–99.  Returns the parsed header together with the
unconsumed remainder of the input (the cursor position after the call).
Note the mapping-table skip is `io::copy` from `rdr.take(8 * channel_count)`
into `io::sink()`: it consumes at most `8 * channel_count` bytes and
succeeds even when the input ends first, hence `List.drop`. -/
def OpusHead.read (input : List Byte) : Except ConvError (OpusHead × List Byte) :=
  match readBytes 8 input with
  | .error e => .error e
  | .ok (magic, r) =>
    if magic ≠ opusHeadMagic then .error .badMagic else
    match readU8 r with
    | .error e => .error e
    | .ok (version, r) =>
      if version ≠ 1 then .error .badVersion else
      match readU8 r with
      | .error e => .error e
      | .ok (channel_count, r) =>
        match readU16LE r with
        | .error e => .error e
        | .ok (preskip, r) =>
          match readU32LE r with
          | .error e => .error e
          | .ok (input_sample_rate, r) =>
            match readI16LE r with
            | .error e => .error e
            | .ok (output_gain, r) =>
              match readU8 r with
              | .error e => .error e
              | .ok (channel_mapping_family, r) =>
                if channel_mapping_family ≠ 0 then
                  match readU8 r with
                  | .error e => .error e
                  | .ok (_stream_count, r) =>
                    match readU8 r with
                    | .error e => .error e
                    | .ok (_coupled_count, r) =>
                      .ok ({ channel_count, preskip, input_sample_rate,
                             output_gain, channel_mapping_family },
                           r.drop (8 * channel_count))
                else
                  .ok ({ channel_count, preskip, input_sample_rate,
                         output_gain, channel_mapping_family }, r)

example :
    OpusHead.read [0x4f, 0x70, 0x75, 0x73, 0x48, 0x65, 0x61, 0x64, 0x01, 0x02,
      0x38, 0x01, 0x80, 0xbb, 0x00, 0x00, 0x00, 0x00, 0x00] =
      .ok ({ channel_count := 2, preskip := 312, input_sample_rate := 48000,
             output_gain := 0, channel_mapping_family := 0 }, []) := by
  rfl

/-- True of byte sequences accepted by Rust's `String::from_utf8`:
well-formed UTF-8 with no overlong encodings, no surrogate code points and
no code point above `U+10FFFF`. A continuation byte lies in `0x80..0xBF`. -/
def utf8Cont (b : Byte) : Bool := 0x80 ≤ b && b ≤ 0xBF

/-- Validity of a whole byte sequence as UTF-8 (the check performed by
`String::from_utf8` in `OpusTags::read`). -/
def validUtf8 : List Byte → Bool
  | [] => true
  | b :: rest =>
    if b ≤ 0x7F then validUtf8 rest
    else if 0xC2 ≤ b && b ≤ 0xDF then
      match rest with
      | c1 :: rest2 => utf8Cont c1 && validUtf8 rest2
      | [] => false
    else if b = 0xE0 then
      match rest with
      | c1 :: c2 :: rest2 =>
        (0xA0 ≤ c1 && c1 ≤ 0xBF) && utf8Cont c2 && validUtf8 rest2
      | _ => false
    else if (0xE1 ≤ b && b ≤ 0xEC) || b = 0xEE || b = 0xEF then
      match rest with
      | c1 :: c2 :: rest2 => utf8Cont c1 && utf8Cont c2 && validUtf8 rest2
      | _ => false
    else if b = 0xED then
      match rest with
      | c1 :: c2 :: rest2 =>
        (0x80 ≤ c1 && c1 ≤ 0x9F) && utf8Cont c2 && validUtf8 rest2
      | _ => false
    else if b = 0xF0 then
      match rest with
      | c1 :: c2 :: c3 :: rest2 =>
        (0x90 ≤ c1 && c1 ≤ 0xBF) && utf8Cont c2 && utf8Cont c3 && validUtf8 rest2
      | _ => false
    else if 0xF1 ≤ b && b ≤ 0xF3 then
      match rest with
      | c1 :: c2 :: c3 :: rest2 =>
        utf8Cont c1 && utf8Cont c2 && utf8Cont c3 && validUtf8 rest2
      | _ => false
    else if b = 0xF4 then
      match rest with
      | c1 :: c2 :: c3 :: rest2 =>
        (0x80 ≤ c1 && c1 ≤ 0x8F) && utf8Cont c2 && utf8Cont c3 && validUtf8 rest2
      | _ => false
    else false

/-- The `OpusTags` struct of `src/lib.rs`.  A Rust `String` is represented
by its UTF-8 bytes (the parser only stores byte sequences it has
validated). -/
structure OpusTags where
  vendor_string : List Byte
  user_comments : List (List Byte)
deriving DecidableEq, Repr

/-- One length-prefixed string field of the comment block: a 32-bit
little-endian byte count followed by that many bytes
(`read_u32` + `read_exact` in `OpusTags::read`). -/
def readLenPrefixed (bs : List Byte) : Except ConvError (List Byte × List Byte) :=
  match readU32LE bs with
  | .error e => .error e
  | .ok (len, r) => readBytes len r

/-- The `for _ in 0..user_comments_count` loop of `OpusTags::read`: reads
`n` length-prefixed strings, validating each as UTF-8. -/
def readComments : Nat → List Byte → Except ConvError (List (List Byte) × List Byte)
  | 0, bs => .ok ([], bs)
  | n + 1, bs =>
    match readLenPrefixed bs with
    | .error e => .error e
    | .ok (s, r) =>
      if ¬ validUtf8 s then .error .invalidEncoding else
      match readComments n r with
      | .error e => .error e
      | .ok (rest, r2) => .ok (s :: rest, r2)

/-- `OpusTags::read`, translated from `src/lib.rs` lines 108–134.
Returns the parsed tags with the unconsumed remainder of the input. -/
def OpusTags.read (input : List Byte) : Except ConvError (OpusTags × List Byte) :=
  match readBytes 8 input with
  | .error e => .error e
  | .ok (magic, r) =>
    if magic ≠ opusTagsMagic then .error .badMagic else
    match readLenPrefixed r with
    | .error e => .error e
    | .ok (vendor, r2) =>
      if ¬ validUtf8 vendor then .error .invalidEncoding else
      match readU32LE r2 with
      | .error e => .error e
      | .ok (count, r3) =>
        match readComments count r3 with
        | .error e => .error e
        | .ok (comments, r4) =>
          .ok ({ vendor_string := vendor, user_comments := comments }, r4)

/-- Framing-only counterpart of `readComments`: same length-prefixed
structure, no UTF-8 validation.  Used to characterise the inputs on which
the comment loop reaches each string's bytes. -/
def readRawComments : Nat → List Byte → Except ConvError (List (List Byte) × List Byte)
  | 0, bs => .ok ([], bs)
  | n + 1, bs =>
    match readLenPrefixed bs with
    | .error e => .error e
    | .ok (s, r) =>
      match readRawComments n r with
      | .error e => .error e
      | .ok (rest, r2) => .ok (s :: rest, r2)

/-- Framing-only counterpart of `OpusTags.read`: parses the magic, the
length-prefixed vendor string, the count and the length-prefixed comments,
skipping the UTF-8 checks.  An input accepted by this parser is one whose
framing is intact, so every string's bytes are well defined. -/
def OpusTags.readRaw (input : List Byte) : Except ConvError (OpusTags × List Byte) :=
  match readBytes 8 input with
  | .error e => .error e
  | .ok (magic, r) =>
    if magic ≠ opusTagsMagic then .error .badMagic else
    match readLenPrefixed r with
    | .error e => .error e
    | .ok (vendor, r2) =>
      match readU32LE r2 with
      | .error e => .error e
      | .ok (count, r3) =>
        match readRawComments count r3 with
        | .error e => .error e
        | .ok (comments, r4) =>
          .ok ({ vendor_string := vendor, user_comments := comments }, r4)

/-- The `caf` crate's `AudioDescription`, restricted to the fields the
converter populates.  `sample_rate` is an `f64` in Rust; every value the
converter stores there is either `48000.0` or `input_sample_rate as f64`,
and `u32 → f64` conversion is exact, so it is modelled by the exact `Nat`
value. -/
structure AudioDescription where
  sample_rate : Nat
  format_id : Nat
  format_flags : Nat
  bytes_per_packet : Nat
  frames_per_packet : Nat
  channels_per_frame : Nat
  bits_per_channel : Nat
deriving DecidableEq, Repr

/-- `u32::from_be_bytes(*b"opus")`. -/
def opusFormatId : Nat := 0x6f707573

/-- The CAF output, modelled per the container-sink capability contract:
the audio-description chunk's fields, the priming-frame count, and the data
chunk's ordered packet payloads.  The byte-level chunk framing is the `caf`
crate's fixed external contract and is not re-derived here. -/
structure CafFile where
  description : AudioDescription
  priming_frames : Int
  packets : List (List Byte)
deriving DecidableEq, Repr

/-- `convert`, translated from `src/lib.rs` lines 7–49.  The `ogg`
demuxer is modelled by its capability contract: a finite list of logical
packet payloads in stream order.  The code reads the first packet (error
`missingIdHeader` if absent), reads and discards the second (error
`missingCommentHeader` if absent), parses the first as an `OpusHead`,
derives the audio description, sets the priming frames from `preskip`,
then appends every remaining packet payload verbatim. -/
def convert (packets : List (List Byte)) : Except ConvError CafFile :=
  match packets with
  | [] => .error .missingIdHeader
  | [_] => .error .missingCommentHeader
  | idPacket :: _commentPacket :: dataPackets =>
    match OpusHead.read idPacket with
    | .error e => .error e
    | .ok (head, _) =>
    let sample_rate := if head.input_sample_rate = 0 then 48000 else head.input_sample_rate
    .ok { description :=
               { sample_rate,
                 format_id := opusFormatId,
                 format_flags := 0,
                 bytes_per_packet := 0,
                 frames_per_packet := 960,
                 channels_per_frame := head.channel_count,
                 bits_per_channel := 0 },
             priming_frames := (head.preskip : Int),
             packets := dataPackets }

/-! ### Helper lemmas -/

theorem readBytes_eight (b0 b1 b2 b3 b4 b5 b6 b7 : Byte) (bs : List Byte) :
    readBytes 8 (b0 :: b1 :: b2 :: b3 :: b4 :: b5 :: b6 :: b7 :: bs) =
      .ok ([b0, b1, b2, b3, b4, b5, b6, b7], bs) := rfl

/-- Full characterisation of `OpusHead.read` on an input long enough to
reach the `channel_mapping_family` byte: the 18 fixed-layout bytes are
explicit, `post` holds the family byte and whatever follows. -/
theorem OpusHead.read_explicit (m0 m1 m2 m3 m4 m5 m6 m7 v cc p0 p1 s0 s1 s2 s3 g0 g1 : Byte)
    (post : List Byte) :
    OpusHead.read (m0 :: m1 :: m2 :: m3 :: m4 :: m5 :: m6 :: m7 :: v :: cc ::
        p0 :: p1 :: s0 :: s1 :: s2 :: s3 :: g0 :: g1 :: post) =
      if [m0, m1, m2, m3, m4, m5, m6, m7] ≠ opusHeadMagic then .error .badMagic
      else if v ≠ 1 then .error .badVersion
      else
        match post with
        | [] => .error .unexpectedEof
        | f :: r =>
          if f ≠ 0 then
            match r with
            | [] => .error .unexpectedEof
            | [_] => .error .unexpectedEof
            | _ :: _ :: tail =>
              .ok ({ channel_count := cc, preskip := p0 + 256 * p1,
                     input_sample_rate := s0 + 256 * s1 + 65536 * s2 + 16777216 * s3,
                     output_gain := toI16 (g0 + 256 * g1),
                     channel_mapping_family := f }, tail.drop (8 * cc))
          else
            .ok ({ channel_count := cc, preskip := p0 + 256 * p1,
                   input_sample_rate := s0 + 256 * s1 + 65536 * s2 + 16777216 * s3,
                   output_gain := toI16 (g0 + 256 * g1),
                   channel_mapping_family := f }, r) := by
  by_cases hm : [m0, m1, m2, m3, m4, m5, m6, m7] = opusHeadMagic
  · by_cases hv : v = 1
    · cases post with
      | nil =>
        simp [OpusHead.read, readBytes_eight, readU8, readU16LE, readU32LE, readI16LE, hm, hv]
      | cons f r =>
        by_cases hf : f = 0
        · subst hf
          simp [OpusHead.read, readBytes_eight, readU8, readU16LE, readU32LE, readI16LE, hm, hv]
        · match r with
          | [] =>
            simp [OpusHead.read, readBytes_eight, readU8, readU16LE, readU32LE, readI16LE,
              hm, hv, hf]
          | [st] =>
            simp [OpusHead.read, readBytes_eight, readU8, readU16LE, readU32LE, readI16LE,
              hm, hv, hf]
          | st :: co :: tail =>
            simp [OpusHead.read, readBytes_eight, readU8, readU16LE, readU32LE, readI16LE,
              hm, hv, hf]
    · simp [OpusHead.read, readBytes_eight, readU8, hm, hv]
  · simp [OpusHead.read, readBytes_eight, hm]

/-- The 19-byte identification header of the source's `read_opus_head`
test: magic, version 1, 2 channels, pre-skip 312, rate 48000, gain 0,
mapping family 0. -/
def testIdHeader : List Byte :=
  [0x4f, 0x70, 0x75, 0x73, 0x48, 0x65, 0x61, 0x64, 0x01, 0x02, 0x38, 0x01, 0x80, 0xbb,
   0x00, 0x00, 0x00, 0x00, 0x00]

/-- An identification header exercising the nonzero-mapping-family branch:
version 1, 1 channel, all other fields 0, mapping family 1, then a
stream-count byte, a coupled-count byte, and 20 further bytes of `0xAA`. -/
def mappingFamilyInput : List Byte :=
  [0x4f, 0x70, 0x75, 0x73, 0x48, 0x65, 0x61, 0x64, 0x01, 0x01, 0x00, 0x00, 0x00, 0x00,
   0x00, 0x00, 0x00, 0x00, 0x01, 0x01, 0x00] ++ List.replicate 20 0xAA

/-! ### Claim theorems -/

/-- C6: parsing a well-formed 19-byte identification header (correct magic,
version 1, channel_mapping_family 0) returns exactly the encoded field
values — channel count, little-endian pre-skip, little-endian sample rate,
signed little-endian output gain, mapping family — and leaves the cursor at
end-of-data, so that a subsequent one-byte read from the same cursor fails
with end-of-data. -/
theorem opusHead_read_wellformed_family0 (cc p0 p1 s0 s1 s2 s3 g0 g1 : Byte) :
    OpusHead.read (0x4f :: 0x70 :: 0x75 :: 0x73 :: 0x48 :: 0x65 :: 0x61 :: 0x64 ::
        1 :: cc :: p0 :: p1 :: s0 :: s1 :: s2 :: s3 :: g0 :: g1 :: [0]) =
      .ok ({ channel_count := cc, preskip := p0 + 256 * p1,
             input_sample_rate := s0 + 256 * s1 + 65536 * s2 + 16777216 * s3,
             output_gain := toI16 (g0 + 256 * g1),
             channel_mapping_family := 0 }, [])
    ∧ readU8 ([] : List Byte) = .error .unexpectedEof := by
  constructor
  · rw [OpusHead.read_explicit]
    simp [opusHeadMagic]
  · rfl

/-- C1 evaluation: on `mappingFamilyInput` (channel_count 1, mapping family
1, 22 bytes available after the family byte) `OpusHead.read` consumes the
stream-count and coupled-count bytes and then `8 * channel_count = 8`
mapping bytes, leaving 12 of the 20 trailing bytes — not the
`2 + channel_count = 3` bytes (leaving 19) that the claim requires. -/
theorem opusHead_read_mapping_skip_eval :
    OpusHead.read mappingFamilyInput =
      .ok ({ channel_count := 1, preskip := 0, input_sample_rate := 0, output_gain := 0,
             channel_mapping_family := 1 }, List.replicate 12 0xAA)
    ∧ (List.replicate 12 (0xAA : Byte)).length ≠ 20 - 1 := by
  exact ⟨rfl, by decide⟩

/-- C10: when the mapping family is nonzero and the stream-count and
coupled-count bytes are present, `OpusHead.read` returns `.ok` even when
the input ends before `8 * channel_count` further bytes are available: the
mapping-table skip (`io::copy` from a `take`-limited reader into a sink)
silently tolerates end-of-data, consuming whatever remains. -/
theorem opusHead_read_truncated_mapping_ok (cc p0 p1 s0 s1 s2 s3 g0 g1 f st co : Byte)
    (tail : List Byte) (hf : f ≠ 0) (hlen : tail.length < 8 * cc) :
    OpusHead.read (0x4f :: 0x70 :: 0x75 :: 0x73 :: 0x48 :: 0x65 :: 0x61 :: 0x64 ::
        1 :: cc :: p0 :: p1 :: s0 :: s1 :: s2 :: s3 :: g0 :: g1 :: f :: st :: co :: tail) =
      .ok ({ channel_count := cc, preskip := p0 + 256 * p1,
             input_sample_rate := s0 + 256 * s1 + 65536 * s2 + 16777216 * s3,
             output_gain := toI16 (g0 + 256 * g1),
             channel_mapping_family := f }, []) := by
  rw [OpusHead.read_explicit]
  simp [opusHeadMagic, hf, List.drop_eq_nil_of_le (le_of_lt hlen)]

/-- Witness for C10: a concrete truncated input — mapping family 1, one
channel, and no bytes at all after the coupled-count byte — still parses
successfully. -/
theorem opusHead_read_truncated_mapping_ok_witness :
    OpusHead.read (0x4f :: 0x70 :: 0x75 :: 0x73 :: 0x48 :: 0x65 :: 0x61 :: 0x64 ::
        1 :: 1 :: 0 :: 0 :: 0 :: 0 :: 0 :: 0 :: 0 :: 0 :: 1 :: 1 :: 0 :: ([] : List Byte)) =
      .ok ({ channel_count := 1, preskip := 0, input_sample_rate := 0,
             output_gain := toI16 0, channel_mapping_family := 1 }, []) :=
  opusHead_read_truncated_mapping_ok 1 0 0 0 0 0 0 0 0 1 1 0 [] (by decide) (by decide)

/-- C2: converting a minimal valid stream — an identification header packet
that parses as an `OpusHead`, any comment packet, then `N` data packets —
succeeds, and the produced CAF's audio description reports the header's
channel count and the derived sample rate, its priming-frame value equals
the header's pre-skip, and its data chunk holds exactly the `N` input data
packets, byte-identical and in the original order. -/
theorem convert_minimal_valid (idp cp : List Byte) (ps : List (List Byte))
    (head : OpusHead) (rest : List Byte)
    (h : OpusHead.read idp = .ok (head, rest)) :
    convert (idp :: cp :: ps) =
      .ok { description :=
              { sample_rate :=
                  if head.input_sample_rate = 0 then 48000 else head.input_sample_rate,
                format_id := opusFormatId,
                format_flags := 0,
                bytes_per_packet := 0,
                frames_per_packet := 960,
                channels_per_frame := head.channel_count,
                bits_per_channel := 0 },
            priming_frames := (head.preskip : Int),
            packets := ps } := by
  simp [convert, h]

/-- Witness for C2: the source's 19-byte test header, an arbitrary comment
packet, and two data packets convert to the expected CAF contents. -/
theorem convert_minimal_valid_witness :
    convert [testIdHeader, [0x7a], [1, 2, 3], [4, 5]] =
      .ok { description :=
              { sample_rate := 48000, format_id := opusFormatId, format_flags := 0,
                bytes_per_packet := 0, frames_per_packet := 960,
                channels_per_frame := 2, bits_per_channel := 0 },
            priming_frames := 312,
            packets := [[1, 2, 3], [4, 5]] } :=
  convert_minimal_valid testIdHeader [0x7a] [[1, 2, 3], [4, 5]]
    { channel_count := 2, preskip := 312, input_sample_rate := 48000,
      output_gain := 0, channel_mapping_family := 0 } [] rfl

/-- C4: an input with no logical packets fails with the missing-header
error, and an input with exactly one logical packet fails with the
missing-comment-packet error; in both cases `convert` returns `.error`, so
no CAF output is produced. -/
theorem convert_missing_packets (p : List Byte) :
    convert [] = .error .missingIdHeader ∧
    convert [p] = .error .missingCommentHeader :=
  ⟨rfl, rfl⟩

/-- C5: for every successfully parsed identification header, the sample
rate placed into the derived audio description is 48000 when the header's
`input_sample_rate` is 0, and is exactly the header's `input_sample_rate`
otherwise (`u32 → f64` conversion is exact, so the value is modelled
exactly). -/
theorem convert_effective_sample_rate (idp cp : List Byte) (ps : List (List Byte))
    (head : OpusHead) (rest : List Byte)
    (h : OpusHead.read idp = .ok (head, rest)) :
    ∃ caf, convert (idp :: cp :: ps) = .ok caf ∧
      caf.description.sample_rate =
        (if head.input_sample_rate = 0 then 48000 else head.input_sample_rate) := by
  refine ⟨{ description :=
              { sample_rate :=
                  if head.input_sample_rate = 0 then 48000 else head.input_sample_rate,
                format_id := opusFormatId, format_flags := 0, bytes_per_packet := 0,
                frames_per_packet := 960, channels_per_frame := head.channel_count,
                bits_per_channel := 0 },
            priming_frames := (head.preskip : Int),
            packets := ps }, ?_, rfl⟩
  simp [convert, h]

/-- Witness for C5: a header with `input_sample_rate = 0` yields 48000, and
a header with `input_sample_rate = 44100` (bytes `44 AC 00 00`) yields
44100. -/
theorem convert_effective_sample_rate_witness :
    (∃ caf, convert [[0x4f, 0x70, 0x75, 0x73, 0x48, 0x65, 0x61, 0x64, 0x01, 0x02,
        0x38, 0x01, 0x00, 0x00, 0x00, 0x00, 0x00, 0x00, 0x00], [], []] = .ok caf ∧
      caf.description.sample_rate = 48000) ∧
    (∃ caf, convert [[0x4f, 0x70, 0x75, 0x73, 0x48, 0x65, 0x61, 0x64, 0x01, 0x02,
        0x38, 0x01, 0x44, 0xac, 0x00, 0x00, 0x00, 0x00, 0x00], [], []] = .ok caf ∧
      caf.description.sample_rate = 44100) := by
  constructor
  · exact convert_effective_sample_rate _ [] [[]]
      { channel_count := 2, preskip := 312, input_sample_rate := 0,
        output_gain := 0, channel_mapping_family := 0 } [] rfl
  · exact convert_effective_sample_rate _ [] [[]]
      { channel_count := 2, preskip := 312, input_sample_rate := 44100,
        output_gain := 0, channel_mapping_family := 0 } [] rfl

/-- C8: `convert` is deterministic — its embedding is a pure function of
the demuxed packet sequence, with no clock, randomness or environment
inputs, so two runs on byte-identical inputs produce identical output. -/
theorem convert_deterministic (ps qs : List (List Byte)) (h : ps = qs) :
    convert ps = convert qs := by
  rw [h]

/-- Witness for C8: two runs on the same concrete packet sequence agree. -/
theorem convert_deterministic_witness :
    convert [testIdHeader, [], [9, 9]] = convert [testIdHeader, [], [9, 9]] :=
  convert_deterministic [testIdHeader, [], [9, 9]] [testIdHeader, [], [9, 9]] rfl

/-- C9: the `output_gain` field is consumed from the header (the cursor is
advanced past its two bytes, at offsets 16–17) but never flows into the
output: for any two inputs that differ only in those two bytes of the
identification header, `convert` produces identical output — whether the
parse succeeds or fails, and for every mapping-family branch. -/
theorem convert_ignores_output_gain
    (m0 m1 m2 m3 m4 m5 m6 m7 v cc p0 p1 s0 s1 s2 s3 g0 g1 g0' g1' : Byte)
    (post cp : List Byte) (ps : List (List Byte)) :
    convert ((m0 :: m1 :: m2 :: m3 :: m4 :: m5 :: m6 :: m7 :: v :: cc ::
        p0 :: p1 :: s0 :: s1 :: s2 :: s3 :: g0 :: g1 :: post) :: cp :: ps) =
      convert ((m0 :: m1 :: m2 :: m3 :: m4 :: m5 :: m6 :: m7 :: v :: cc ::
        p0 :: p1 :: s0 :: s1 :: s2 :: s3 :: g0' :: g1' :: post) :: cp :: ps) := by
  by_cases hm : [m0, m1, m2, m3, m4, m5, m6, m7] = opusHeadMagic
  · by_cases hv : v = 1
    · cases post with
      | nil => simp [convert, OpusHead.read_explicit, hm, hv]
      | cons f r =>
        by_cases hf : f = 0
        · subst hf
          simp [convert, OpusHead.read_explicit, hm, hv]
        · match r with
          | [] => simp [convert, OpusHead.read_explicit, hm, hv, hf]
          | [st] => simp [convert, OpusHead.read_explicit, hm, hv, hf]
          | st :: co :: tail => simp [convert, OpusHead.read_explicit, hm, hv, hf]
    · simp [convert, OpusHead.read_explicit, hm, hv]
  · simp [convert, OpusHead.read_explicit, hm]

/-- Counterexample to C3 as stated: the second logical packet `[1, 2, 3]`
fails to parse as an OpusTags block (its parse errors immediately), yet
`convert` succeeds on an input whose second packet it is — so the second
packet is not "validated for shape", and an OpusTags parsing failure does
not abort the conversion. -/
theorem convert_ok_despite_malformed_comment_packet :
    OpusTags.read [1, 2, 3] = .error .unexpectedEof ∧
    convert [testIdHeader, [1, 2, 3]] =
      .ok { description :=
              { sample_rate := 48000, format_id := opusFormatId, format_flags := 0,
                bytes_per_packet := 0, frames_per_packet := 960,
                channels_per_frame := 2, bits_per_channel := 0 },
            priming_frames := 312,
            packets := [] } :=
  ⟨rfl, rfl⟩

/-- C3 as amended: during conversion the second logical packet is required
to be present, but its contents are never parsed or validated —
`OpusTags::read` exists in the library yet `convert` does not call it — so
the packet is discarded without affecting the output: replacing the second
packet's bytes by any other bytes leaves `convert`'s result unchanged. -/
theorem convert_comment_packet_ignored (idp c c' : List Byte) (ps : List (List Byte)) :
    convert (idp :: c :: ps) = convert (idp :: c' :: ps) := rfl

/-- If the framing-only comment loop succeeds and one of the parsed
comment strings is invalid UTF-8, the validating comment loop of
`OpusTags::read` fails with the encoding error. -/
theorem readComments_error_of_invalid (n : Nat) (bs r : List Byte) (cs : List (List Byte))
    (h : readRawComments n bs = .ok (cs, r))
    (hinv : ∃ c ∈ cs, validUtf8 c = false) :
    readComments n bs = .error .invalidEncoding := by
  induction n generalizing bs cs r with
  | zero =>
    simp [readRawComments] at h
    rcases hinv with ⟨c, hc, _⟩
    rw [h.1] at hc
    simp at hc
  | succ n ih =>
    cases hlp : readLenPrefixed bs with
    | error e => simp [readRawComments, hlp] at h
    | ok sr =>
      obtain ⟨s, r1⟩ := sr
      cases hrec : readRawComments n r1 with
      | error e => simp [readRawComments, hlp, hrec] at h
      | ok cr =>
        obtain ⟨cs', r2⟩ := cr
        simp [readRawComments, hlp, hrec] at h
        obtain ⟨h1, h2⟩ := h
        by_cases hs : validUtf8 s
        · have hinv2 : ∃ c ∈ cs', validUtf8 c = false := by
            rcases hinv with ⟨c, hc, hcf⟩
            rw [← h1] at hc
            rcases List.mem_cons.mp hc with hceq | hcm
            · rw [hceq] at hcf
              rw [hs] at hcf
              cases hcf
            · exact ⟨c, hcm, hcf⟩
          have herr := ih r1 r2 cs' hrec hinv2
          simp [readComments, hlp, hs, herr]
        · simp [readComments, hlp, hs]

/-- C7: whenever the comment block's length-prefixed framing is intact (so
the vendor string and every user comment denote well-defined byte
sequences) but the vendor string or any user comment is not valid UTF-8,
`OpusTags.read` fails with the encoding error: no `OpusTags` value is
returned and no partial set of later comments is recovered. -/
theorem opusTags_read_invalid_utf8_aborts (input : List Byte) (t : OpusTags) (rem : List Byte)
    (hraw : OpusTags.readRaw input = .ok (t, rem))
    (hinv : validUtf8 t.vendor_string = false ∨ ∃ c ∈ t.user_comments, validUtf8 c = false) :
    OpusTags.read input = .error .invalidEncoding := by
  cases h8 : readBytes 8 input with
  | error e => simp [OpusTags.readRaw, h8] at hraw
  | ok mr =>
    obtain ⟨magic, r⟩ := mr
    by_cases hm : magic = opusTagsMagic
    · cases hv : readLenPrefixed r with
      | error e => simp [OpusTags.readRaw, h8, hm, hv] at hraw
      | ok vr =>
        obtain ⟨vendor, r2⟩ := vr
        cases hc : readU32LE r2 with
        | error e => simp [OpusTags.readRaw, h8, hm, hv, hc] at hraw
        | ok cr =>
          obtain ⟨count, r3⟩ := cr
          cases hcm : readRawComments count r3 with
          | error e => simp [OpusTags.readRaw, h8, hm, hv, hc, hcm] at hraw
          | ok cms =>
            obtain ⟨comments, r4⟩ := cms
            simp [OpusTags.readRaw, h8, hm, hv, hc, hcm] at hraw
            obtain ⟨ht, hrem⟩ := hraw
            rw [← ht] at hinv
            simp only at hinv
            by_cases hvu : validUtf8 vendor
            · have hinv2 : ∃ c ∈ comments, validUtf8 c = false := by
                rcases hinv with hvf | hcf
                · rw [hvu] at hvf
                  cases hvf
                · exact hcf
              have herr := readComments_error_of_invalid count r3 r4 comments hcm hinv2
              simp [OpusTags.read, h8, hm, hv, hvu, hc, herr]
            · simp [OpusTags.read, h8, hm, hv, hvu]
    · simp [OpusTags.readRaw, h8, hm] at hraw

/-- Witness for C7: a comment block whose framing is intact but whose
vendor string is the single byte `0xFF` (not valid UTF-8) makes the parse
fail with the encoding error. -/
theorem opusTags_read_invalid_utf8_aborts_witness :
    OpusTags.read [0x4f, 0x70, 0x75, 0x73, 0x54, 0x61, 0x67, 0x73,
      1, 0, 0, 0, 0xFF, 0, 0, 0, 0] = .error .invalidEncoding :=
  opusTags_read_invalid_utf8_aborts
    [0x4f, 0x70, 0x75, 0x73, 0x54, 0x61, 0x67, 0x73, 1, 0, 0, 0, 0xFF, 0, 0, 0, 0]
    { vendor_string := [0xFF], user_comments := [] } [] rfl (Or.inl rfl)
